import Mathlib

/-!
Shallow embedding of the Vector3 / Sphere ray-intersection core
(`Week3-Ray-Intersections/math/sphere.js` and the Vector3 class).
JavaScript doubles are modelled as real numbers, `Math.sqrt` as
`Real.sqrt`; mutating JS methods are embedded as value-level functions,
and a separate store-passing embedding is given for the frame claim.
-/

namespace RaySphere

/-- The Vector3 class: three scalar components. -/
structure Vector3 where
  x : ℝ
  y : ℝ
  z : ℝ

namespace Vector3

/-- `clone()`: `new Vector3(this.x, this.y, this.z)`. -/
def clone (v : Vector3) : Vector3 := ⟨v.x, v.y, v.z⟩

/-- `negate()`: each component multiplied by -1. -/
def negate (v : Vector3) : Vector3 := ⟨v.x * -1, v.y * -1, v.z * -1⟩

/-- `add(v)`: componentwise sum, written into the receiver. -/
def add (v w : Vector3) : Vector3 := ⟨v.x + w.x, v.y + w.y, v.z + w.z⟩

/-- `multiplyScalar(scalar)`: each component multiplied by the scalar. -/
def multiplyScalar (v : Vector3) (scalar : ℝ) : Vector3 :=
  ⟨v.x * scalar, v.y * scalar, v.z * scalar⟩

/-- `lengthSqr()`: sum of squared components, no square root. -/
def lengthSqr (v : Vector3) : ℝ := v.x * v.x + v.y * v.y + v.z * v.z

/-- `length()`: square root of the sum of squared components. -/
noncomputable def length (v : Vector3) : ℝ :=
  Real.sqrt (v.x * v.x + v.y * v.y + v.z * v.z)

/-- `dot(other)`: scalar dot product. -/
def dot (v other : Vector3) : ℝ :=
  v.x * other.x + v.y * other.y + v.z * other.z

/-- `normalize()`: the source squares each component, divides by
`lengthSqr`, and takes `Math.sqrt` of the quotient (guarded by
`length() > 0`); this reconstructs each component from its square. -/
noncomputable def normalize (v : Vector3) : Vector3 :=
  let lsq := v.lengthSqr
  let ogXSquared := v.x * v.x
  let ogYSquared := v.y * v.y
  let ogZSquared := v.z * v.z
  if v.length > 0 then
    ⟨Real.sqrt (ogXSquared / lsq), Real.sqrt (ogYSquared / lsq),
      Real.sqrt (ogZSquared / lsq)⟩
  else v

/-- `Vector3.fromTo(fromPoint, toPoint)`: componentwise `to - from`. -/
def fromTo (fromPoint toPoint : Vector3) : Vector3 :=
  ⟨toPoint.x - fromPoint.x, toPoint.y - fromPoint.y, toPoint.z - fromPoint.z⟩

end Vector3

/-- On nonzero vectors the squared length is strictly positive. -/
theorem lengthSqr_pos (v : Vector3) (hv : v ≠ ⟨0, 0, 0⟩) :
    0 < v.lengthSqr := by
  obtain ⟨x, y, z⟩ := v
  simp only [ne_eq, Vector3.mk.injEq, not_and] at hv
  by_contra hle
  push_neg at hle
  simp only [Vector3.lengthSqr] at hle
  have hx : x = 0 := by nlinarith [mul_self_nonneg x, mul_self_nonneg y, mul_self_nonneg z]
  have hy : y = 0 := by nlinarith [mul_self_nonneg x, mul_self_nonneg y, mul_self_nonneg z]
  have hz : z = 0 := by nlinarith [mul_self_nonneg x, mul_self_nonneg y, mul_self_nonneg z]
  exact hv hx hy hz

/-- On nonzero vectors `length()` is strictly positive. -/
theorem length_pos (v : Vector3) (hv : v ≠ ⟨0, 0, 0⟩) : 0 < v.length := by
  have h := lengthSqr_pos v hv
  simpa [Vector3.length, Vector3.lengthSqr] using Real.sqrt_pos.mpr h

/-- Evaluating the code's `normalize` on `(0, 0, -1)`: the component is
rebuilt as `sqrt((-1)*(-1)/1) = 1`, so the sign flips. -/
theorem normalize_neg_unit_z : Vector3.normalize ⟨0, 0, -1⟩ = ⟨0, 0, 1⟩ := by
  simp only [Vector3.normalize, Vector3.length, Vector3.lengthSqr]
  norm_num

/-- C1. The claim says `normalize` preserves the sign of each component
(each equals the original divided by the scalar length). The code instead
sets each component to `sqrt(component² / lengthSqr)`, dropping the sign:
on `(0, 0, -1)` (length 1) it produces `(0, 0, 1)`, not `(0, 0, -1)`. -/
theorem c1_normalize_sign_bug :
    Vector3.normalize ⟨0, 0, -1⟩ = ⟨0, 0, 1⟩ ∧
      (Vector3.normalize ⟨0, 0, -1⟩).z ≠ (-1 : ℝ) / Vector3.length ⟨0, 0, -1⟩ := by
  refine ⟨normalize_neg_unit_z, ?_⟩
  rw [normalize_neg_unit_z]
  simp only [Vector3.length]
  norm_num

/-- C6. For every nonzero vector the normalized vector has length exactly 1
(squaring in the length computation cancels the sign loss), and the zero
vector is left unchanged by `normalize`. -/
theorem c6_normalize_length (v : Vector3) :
    (v ≠ ⟨0, 0, 0⟩ → (v.normalize).length = 1) ∧
      (v = ⟨0, 0, 0⟩ → v.normalize = v ∧ v.length = 0) := by
  constructor
  · intro hv
    have hS : 0 < v.lengthSqr := lengthSqr_pos v hv
    have hlen : 0 < v.length := length_pos v hv
    have hSx : (0 : ℝ) ≤ v.x * v.x / v.lengthSqr := div_nonneg (mul_self_nonneg _) hS.le
    have hSy : (0 : ℝ) ≤ v.y * v.y / v.lengthSqr := div_nonneg (mul_self_nonneg _) hS.le
    have hSz : (0 : ℝ) ≤ v.z * v.z / v.lengthSqr := div_nonneg (mul_self_nonneg _) hS.le
    have hnorm : v.normalize = ⟨Real.sqrt (v.x * v.x / v.lengthSqr),
        Real.sqrt (v.y * v.y / v.lengthSqr), Real.sqrt (v.z * v.z / v.lengthSqr)⟩ := by
      simp only [Vector3.normalize, gt_iff_lt, hlen, if_true]
    rw [hnorm]
    simp only [Vector3.length]
    rw [Real.mul_self_sqrt hSx, Real.mul_self_sqrt hSy, Real.mul_self_sqrt hSz]
    rw [div_add_div_same, div_add_div_same,
      show v.x * v.x + v.y * v.y + v.z * v.z = v.lengthSqr from rfl,
      div_self (ne_of_gt hS), Real.sqrt_one]
  · intro hv
    subst hv
    constructor
    · simp [Vector3.normalize, Vector3.length]
    · simp [Vector3.length]

/-- Witness for C6 at the concrete nonzero vector `(3, 4, 0)`. -/
theorem c6_normalize_length_witness :
    (Vector3.normalize ⟨3, 4, 0⟩).length = 1 :=
  (c6_normalize_length ⟨3, 4, 0⟩).1 (by simp)

/-- A ray: origin point plus direction vector (external collaborator type). -/
structure Ray where
  origin : Vector3
  direction : Vector3

/-- A constructed sphere as the raycast method sees it: center and radius. -/
structure Sphere where
  center : Vector3
  radius : ℝ

/-- The record `raycast` builds: hit flag, optional point, normal, distance
(`null` fields are `none`). -/
structure RaycastResult where
  hit : Bool
  point : Option Vector3
  normal : Option Vector3
  distance : Option ℝ

/-- The initial `result` object: `hit: false`, all other fields `null`;
it is returned unchanged on every no-hit path. -/
def noHitResult : RaycastResult := ⟨false, none, none, none⟩

/-- An operand of a JS relational comparison after ToPrimitive: a plain
number, or a function object (a method accessed without calling it),
whose ToNumber conversion is NaN. -/
inductive JsRelOperand where
  | num (val : ℝ)
  | fnRef

/-- JS `<=`: if either operand converts to NaN the comparison is false;
two plain numbers compare numerically. -/
noncomputable def jsLe : JsRelOperand → JsRelOperand → Bool
  | JsRelOperand.num a, JsRelOperand.num b => decide (a ≤ b)
  | _, _ => false

/-- The source guard reads `normal.length <= 0`: `length` is accessed as a
property, not called, so the operand is the method function object itself,
whatever vector it is read from. -/
def lengthMethodRef (_normal : Vector3) : JsRelOperand := JsRelOperand.fnRef

/-- The root-selection block of `raycast`: `t` stays `null` unless a
strictly positive root exists; with both positive the minimum is taken. -/
noncomputable def selectRoot (t1 t2 : ℝ) : Option ℝ :=
  if t1 > 0 ∧ t2 > 0 then some (min t1 t2)
  else if t1 > 0 then some t1
  else if t2 > 0 then some t2
  else none

/-- `Sphere.raycast(ray)`, embedded at the level of vector values. -/
noncomputable def raycast (s : Sphere) (ray : Ray) : RaycastResult :=
  let originToCenter := Vector3.fromTo ray.origin s.center
  let centerToOrigin := originToCenter.clone.negate
  let a := ray.direction.dot ray.direction
  let b := 2 * centerToOrigin.dot ray.direction
  let c := centerToOrigin.dot centerToOrigin - s.radius * s.radius
  let discriminant := b * b - 4 * a * c
  if discriminant < 0 then noHitResult
  else
    let sqrtDiscriminant := Real.sqrt discriminant
    let t1 := (-b - sqrtDiscriminant) / (2 * a)
    let t2 := (-b + sqrtDiscriminant) / (2 * a)
    match selectRoot t1 t2 with
    | none => noHitResult
    | some t =>
      let intersectionPoint := ray.origin.clone.add (ray.direction.clone.multiplyScalar t)
      let normal := (Vector3.fromTo s.center intersectionPoint).normalize
      let distance := t
      if distance < 0 then noHitResult
      else if originToCenter.length < s.radius then noHitResult
      else if jsLe (lengthMethodRef normal) (JsRelOperand.num 0) then noHitResult
      else { hit := true, point := some intersectionPoint,
             normal := some normal, distance := some distance }

/-- Quadratic coefficient `a = ray.direction.dot(ray.direction)`. -/
noncomputable def coeffA (ray : Ray) : ℝ := ray.direction.dot ray.direction

/-- Quadratic coefficient `b = 2 * centerToOrigin.dot(ray.direction)`,
with `centerToOrigin = originToCenter.clone().negate()`. -/
noncomputable def coeffB (s : Sphere) (ray : Ray) : ℝ :=
  2 * ((Vector3.fromTo ray.origin s.center).clone.negate.dot ray.direction)

/-- Quadratic coefficient `c = centerToOrigin.dot(centerToOrigin) - r²`. -/
noncomputable def coeffC (s : Sphere) (ray : Ray) : ℝ :=
  (Vector3.fromTo ray.origin s.center).clone.negate.dot
      (Vector3.fromTo ray.origin s.center).clone.negate
    - s.radius * s.radius

/-- The discriminant `b*b - 4*a*c` computed by `raycast`. -/
noncomputable def discrim (s : Sphere) (ray : Ray) : ℝ :=
  coeffB s ray * coeffB s ray - 4 * coeffA ray * coeffC s ray

/-- The root `t1 = (-b - sqrt(discriminant)) / (2*a)`. -/
noncomputable def root1 (s : Sphere) (ray : Ray) : ℝ :=
  (-coeffB s ray - Real.sqrt (discrim s ray)) / (2 * coeffA ray)

/-- The root `t2 = (-b + sqrt(discriminant)) / (2*a)`. -/
noncomputable def root2 (s : Sphere) (ray : Ray) : ℝ :=
  (-coeffB s ray + Real.sqrt (discrim s ray)) / (2 * coeffA ray)

/-- `raycast` re-expressed through the named coefficient and root
definitions; definitionally the same function. -/
theorem raycast_unfold (s : Sphere) (ray : Ray) :
    raycast s ray =
      if discrim s ray < 0 then noHitResult
      else
        match selectRoot (root1 s ray) (root2 s ray) with
        | none => noHitResult
        | some t =>
          if t < 0 then noHitResult
          else if (Vector3.fromTo ray.origin s.center).length < s.radius then
            noHitResult
          else if jsLe (lengthMethodRef ((Vector3.fromTo s.center
              (ray.origin.clone.add (ray.direction.clone.multiplyScalar t))).normalize))
              (JsRelOperand.num 0) then noHitResult
          else ⟨true,
            some (ray.origin.clone.add (ray.direction.clone.multiplyScalar t)),
            some ((Vector3.fromTo s.center
              (ray.origin.clone.add (ray.direction.clone.multiplyScalar t))).normalize),
            some t⟩ := rfl

/-- If neither root is strictly positive, `t` stays `null`. -/
theorem selectRoot_eq_none {t1 t2 : ℝ} (h1 : ¬ 0 < t1) (h2 : ¬ 0 < t2) :
    selectRoot t1 t2 = none := by
  unfold selectRoot
  rw [if_neg (fun hc => h1 hc.1), if_neg h1, if_neg h2]

/-- A selected root is characterized by the min-of-positives rule. -/
theorem selectRoot_some {t1 t2 t : ℝ} (h : selectRoot t1 t2 = some t) :
    t = if 0 < t1 ∧ 0 < t2 then min t1 t2 else if 0 < t1 then t1 else t2 := by
  unfold selectRoot at h
  split at h
  next hc =>
    cases h
    rw [if_pos hc]
  next hc =>
    split at h
    next h1 =>
      cases h
      rw [if_neg hc, if_pos h1]
    next h1 =>
      split at h
      next h2 =>
        cases h
        rw [if_neg hc, if_neg h1]
      next h2 => cases h

/-- A selected root is strictly positive. -/
theorem selectRoot_pos {t1 t2 t : ℝ} (h : selectRoot t1 t2 = some t) : 0 < t := by
  unfold selectRoot at h
  split at h
  next hc =>
    cases h
    exact lt_min hc.1 hc.2
  next hc =>
    split at h
    next h1 => cases h; exact h1
    next h1 =>
      split at h
      next h2 => cases h; exact h2
      next h2 => cases h

/-- `raycast` with the `normal.length <= 0` rejection branch deleted. -/
noncomputable def raycastWithoutNormalGuard (s : Sphere) (ray : Ray) : RaycastResult :=
  let originToCenter := Vector3.fromTo ray.origin s.center
  let centerToOrigin := originToCenter.clone.negate
  let a := ray.direction.dot ray.direction
  let b := 2 * centerToOrigin.dot ray.direction
  let c := centerToOrigin.dot centerToOrigin - s.radius * s.radius
  let discriminant := b * b - 4 * a * c
  if discriminant < 0 then noHitResult
  else
    let sqrtDiscriminant := Real.sqrt discriminant
    let t1 := (-b - sqrtDiscriminant) / (2 * a)
    let t2 := (-b + sqrtDiscriminant) / (2 * a)
    match selectRoot t1 t2 with
    | none => noHitResult
    | some t =>
      let intersectionPoint := ray.origin.clone.add (ray.direction.clone.multiplyScalar t)
      let normal := (Vector3.fromTo s.center intersectionPoint).normalize
      let distance := t
      if distance < 0 then noHitResult
      else if originToCenter.length < s.radius then noHitResult
      else { hit := true, point := some intersectionPoint,
             normal := some normal, distance := some distance }

/-- C9. The guard compares the `length` method reference itself to 0; a
function object converts to NaN, so the JS comparison is always false and
the branch never fires: deleting it leaves `raycast` unchanged. -/
theorem c9_normal_guard_unreachable (s : Sphere) (ray : Ray) :
    (∀ v : Vector3, jsLe (lengthMethodRef v) (JsRelOperand.num 0) = false) ∧
      raycast s ray = raycastWithoutNormalGuard s ray :=
  ⟨fun _ => rfl, rfl⟩

/-- The intersection point `ray.origin.clone().add(direction.clone().multiplyScalar(t))`. -/
def hitPoint (ray : Ray) (t : ℝ) : Vector3 :=
  ray.origin.clone.add (ray.direction.clone.multiplyScalar t)

/-- The normal `Vector3.fromTo(center, intersectionPoint).normalize()`. -/
noncomputable def hitNormal (s : Sphere) (ray : Ray) (t : ℝ) : Vector3 :=
  (Vector3.fromTo s.center (hitPoint ray t)).normalize

/-- Every run of `raycast` either returns the untouched no-hit record or a
hit record built from a root selected by `selectRoot`. -/
theorem raycast_cases (s : Sphere) (ray : Ray) :
    raycast s ray = noHitResult ∨
      (¬ discrim s ray < 0 ∧ ∃ t, selectRoot (root1 s ray) (root2 s ray) = some t ∧
        raycast s ray = ⟨true, some (hitPoint ray t), some (hitNormal s ray t), some t⟩) := by
  rw [raycast_unfold]
  split
  · exact Or.inl rfl
  · next hd =>
    split
    · exact Or.inl rfl
    · next t heq =>
      split
      · exact Or.inl rfl
      · split
        · exact Or.inl rfl
        · split
          · exact Or.inl rfl
          · exact Or.inr ⟨hd, t, heq, rfl⟩

/-- C4. `raycast` follows the discriminant / root-selection rule: negative
discriminant means no-hit; with a nonnegative discriminant, if neither root
is strictly positive the result is no-hit, and any hit carries as its
distance the smallest strictly-positive root (min of both when both are
positive, else the positive one). -/
theorem c4_root_selection (s : Sphere) (ray : Ray)
    (hdir : ray.direction ≠ ⟨0, 0, 0⟩) :
    (discrim s ray < 0 → raycast s ray = noHitResult) ∧
      (0 ≤ discrim s ray →
        ((¬ 0 < root1 s ray → ¬ 0 < root2 s ray → raycast s ray = noHitResult) ∧
          ((raycast s ray).hit = true →
            (raycast s ray).distance = some
              (if 0 < root1 s ray ∧ 0 < root2 s ray
                then min (root1 s ray) (root2 s ray)
                else if 0 < root1 s ray then root1 s ray else root2 s ray)))) := by
  refine ⟨?_, fun _ => ⟨?_, ?_⟩⟩
  · intro hlt
    rw [raycast_unfold, if_pos hlt]
  · intro h1 h2
    rcases raycast_cases s ray with hno | ⟨hd, t, hsel, heq⟩
    · exact hno
    · rw [selectRoot_eq_none h1 h2] at hsel
      exact Option.noConfusion hsel
  · intro hhit
    rcases raycast_cases s ray with hno | ⟨hd, t, hsel, heq⟩
    · rw [hno] at hhit
      exact absurd hhit (by simp [noHitResult])
    · rw [heq]
      exact congrArg some (selectRoot_some hsel)

/-- C10. Every result record is well-formed: a no-hit result has all of
point, normal and distance `null`; a hit result carries a point, a normal,
and a strictly positive distance equal to the selected root. -/
theorem c10_result_well_formed (s : Sphere) (ray : Ray) :
    ((raycast s ray).hit = false →
      (raycast s ray).point = none ∧ (raycast s ray).normal = none ∧
        (raycast s ray).distance = none) ∧
      ((raycast s ray).hit = true →
        ∃ p n t, raycast s ray = ⟨true, some p, some n, some t⟩ ∧ 0 < t ∧
          selectRoot (root1 s ray) (root2 s ray) = some t) := by
  rcases raycast_cases s ray with hno | ⟨hd, t, hsel, heq⟩
  · rw [hno]
    exact ⟨fun _ => ⟨rfl, rfl, rfl⟩, fun h => by simp [noHitResult] at h⟩
  · rw [heq]
    exact ⟨fun h => by simp at h,
      fun _ => ⟨hitPoint ray t, hitNormal s ray t, t, rfl, selectRoot_pos hsel, hsel⟩⟩

/-- `raycast` evaluated on the hit path, given the discriminant, the
selected root and the origin-outside check. -/
theorem raycast_eq_hit (s : Sphere) (ray : Ray) {t : ℝ}
    (hd : ¬ discrim s ray < 0)
    (hsel : selectRoot (root1 s ray) (root2 s ray) = some t)
    (hi : ¬ (Vector3.fromTo ray.origin s.center).length < s.radius) :
    raycast s ray =
      ⟨true, some (hitPoint ray t), some (hitNormal s ray t), some t⟩ := by
  have ht : ¬ t < 0 := not_lt.mpr (selectRoot_pos hsel).le
  rw [raycast_unfold, if_neg hd]
  split
  next heq => rw [hsel] at heq; exact Option.noConfusion heq
  next t' heq =>
    rw [hsel] at heq
    injection heq with h
    subst h
    rw [if_neg ht, if_neg hi]
    rfl

/-- C5. If the ray origin lies strictly inside the sphere (origin-to-center
distance below the radius), `raycast` returns the no-hit record on every
path. -/
theorem c5_origin_inside_no_hit (s : Sphere) (ray : Ray)
    (hin : (Vector3.fromTo ray.origin s.center).length < s.radius) :
    raycast s ray = noHitResult := by
  rw [raycast_unfold]
  split
  · rfl
  · split
    · rfl
    · split
      · rfl
      · rfl

theorem sqrt_four : Real.sqrt 4 = 2 := by
  rw [show (4 : ℝ) = 2 ^ 2 by norm_num, Real.sqrt_sq (by norm_num : (0 : ℝ) ≤ 2)]

theorem sqrt_twentyfive : Real.sqrt 25 = 5 := by
  rw [show (25 : ℝ) = 5 ^ 2 by norm_num, Real.sqrt_sq (by norm_num : (0 : ℝ) ≤ 5)]

/-- `normalize` leaves the unit vector `(0, 1, 0)` in place (all components
already nonnegative, so no sign is lost). -/
theorem normalize_unit_y : Vector3.normalize ⟨0, 1, 0⟩ = ⟨0, 1, 0⟩ := by
  simp only [Vector3.normalize, Vector3.length, Vector3.lengthSqr]
  norm_num

/-- Full evaluation of `raycast` for the unit sphere at the origin and the
ray from `(0,0,-5)` along `+z`: hit at `(0,0,-1)` with distance 4, but the
returned normal is `(0,0,1)` because `normalize` dropped the sign. -/
theorem raycast_eval_axis :
    raycast ⟨⟨0, 0, 0⟩, 1⟩ ⟨⟨0, 0, -5⟩, ⟨0, 0, 1⟩⟩ =
      ⟨true, some ⟨0, 0, -1⟩, some ⟨0, 0, 1⟩, some 4⟩ := by
  have hA : coeffA ⟨⟨0, 0, -5⟩, ⟨0, 0, 1⟩⟩ = 1 := by
    norm_num [coeffA, Vector3.dot]
  have hB : coeffB ⟨⟨0, 0, 0⟩, 1⟩ ⟨⟨0, 0, -5⟩, ⟨0, 0, 1⟩⟩ = -10 := by
    norm_num [coeffB, Vector3.fromTo, Vector3.clone, Vector3.negate, Vector3.dot]
  have hdisc : discrim ⟨⟨0, 0, 0⟩, 1⟩ ⟨⟨0, 0, -5⟩, ⟨0, 0, 1⟩⟩ = 4 := by
    norm_num [discrim, coeffA, coeffB, coeffC, Vector3.fromTo, Vector3.clone,
      Vector3.negate, Vector3.dot]
  have hr1 : root1 ⟨⟨0, 0, 0⟩, 1⟩ ⟨⟨0, 0, -5⟩, ⟨0, 0, 1⟩⟩ = 4 := by
    simp only [root1, hdisc, hB, hA, sqrt_four]
    norm_num
  have hr2 : root2 ⟨⟨0, 0, 0⟩, 1⟩ ⟨⟨0, 0, -5⟩, ⟨0, 0, 1⟩⟩ = 6 := by
    simp only [root2, hdisc, hB, hA, sqrt_four]
    norm_num
  have hsel : selectRoot (root1 ⟨⟨0, 0, 0⟩, 1⟩ ⟨⟨0, 0, -5⟩, ⟨0, 0, 1⟩⟩)
      (root2 ⟨⟨0, 0, 0⟩, 1⟩ ⟨⟨0, 0, -5⟩, ⟨0, 0, 1⟩⟩) = some 4 := by
    rw [hr1, hr2]
    simp only [selectRoot]
    rw [if_pos ⟨by norm_num, by norm_num⟩, min_eq_left (by norm_num : (4 : ℝ) ≤ 6)]
  have hi : ¬ (Vector3.fromTo (⟨0, 0, -5⟩ : Vector3) ⟨0, 0, 0⟩).length < (1 : ℝ) := by
    simp only [Vector3.fromTo, Vector3.length]
    norm_num [sqrt_twentyfive]
  have hp : hitPoint ⟨⟨0, 0, -5⟩, ⟨0, 0, 1⟩⟩ 4 = ⟨0, 0, -1⟩ := by
    simp only [hitPoint, Vector3.clone, Vector3.add, Vector3.multiplyScalar]
    norm_num
  have hn : hitNormal ⟨⟨0, 0, 0⟩, 1⟩ ⟨⟨0, 0, -5⟩, ⟨0, 0, 1⟩⟩ 4 = ⟨0, 0, 1⟩ := by
    simp only [hitNormal, hp]
    have hft : Vector3.fromTo (⟨0, 0, 0⟩ : Vector3) ⟨0, 0, -1⟩ = (⟨0, 0, -1⟩ : Vector3) := by
      simp only [Vector3.fromTo]
      norm_num
    rw [hft, normalize_neg_unit_z]
  rw [raycast_eq_hit _ _ (by rw [hdisc]; norm_num) hsel hi, hp, hn]

/-- C2. For the unit sphere at the origin and the ray from `(0,0,-5)` along
`+z`, `raycast` reports a hit at point `(0,0,-1)` with distance 4 as the
claim says, but the normal comes back `(0,0,1)` instead of the claimed
`(0,0,-1)`: the sign is lost inside `normalize`. -/
theorem c2_axis_ray_evaluation :
    raycast ⟨⟨0, 0, 0⟩, 1⟩ ⟨⟨0, 0, -5⟩, ⟨0, 0, 1⟩⟩ =
      ⟨true, some ⟨0, 0, -1⟩, some ⟨0, 0, 1⟩, some 4⟩ ∧
      (⟨0, 0, 1⟩ : Vector3) ≠ ⟨0, 0, -1⟩ :=
  ⟨raycast_eval_axis, by norm_num [Vector3.mk.injEq]⟩

/-- Witness for C5 at the documented example: origin at the sphere center,
direction `+z`, result no-hit. -/
theorem c5_origin_inside_no_hit_witness :
    raycast ⟨⟨0, 0, 0⟩, 1⟩ ⟨⟨0, 0, 0⟩, ⟨0, 0, 1⟩⟩ = noHitResult :=
  c5_origin_inside_no_hit _ _ (by
    simp only [Vector3.fromTo, Vector3.length]
    norm_num [Real.sqrt_zero])

/-- Witness for C4: for the unit sphere and the ray from `(0,0,-5)` along
`-z`, both roots are negative and `raycast` returns no-hit. -/
theorem c4_root_selection_witness :
    raycast ⟨⟨0, 0, 0⟩, 1⟩ ⟨⟨0, 0, -5⟩, ⟨0, 0, -1⟩⟩ = noHitResult := by
  have hA : coeffA ⟨⟨0, 0, -5⟩, ⟨0, 0, -1⟩⟩ = 1 := by
    norm_num [coeffA, Vector3.dot]
  have hB : coeffB ⟨⟨0, 0, 0⟩, 1⟩ ⟨⟨0, 0, -5⟩, ⟨0, 0, -1⟩⟩ = 10 := by
    norm_num [coeffB, Vector3.fromTo, Vector3.clone, Vector3.negate, Vector3.dot]
  have hdisc : discrim ⟨⟨0, 0, 0⟩, 1⟩ ⟨⟨0, 0, -5⟩, ⟨0, 0, -1⟩⟩ = 4 := by
    norm_num [discrim, coeffA, coeffB, coeffC, Vector3.fromTo, Vector3.clone,
      Vector3.negate, Vector3.dot]
  have hr1 : root1 ⟨⟨0, 0, 0⟩, 1⟩ ⟨⟨0, 0, -5⟩, ⟨0, 0, -1⟩⟩ = -6 := by
    simp only [root1, hdisc, hB, hA, sqrt_four]
    norm_num
  have hr2 : root2 ⟨⟨0, 0, 0⟩, 1⟩ ⟨⟨0, 0, -5⟩, ⟨0, 0, -1⟩⟩ = -4 := by
    simp only [root2, hdisc, hB, hA, sqrt_four]
    norm_num
  exact ((c4_root_selection _ _ (by norm_num [Vector3.mk.injEq])).2
    (by rw [hdisc]; norm_num)).1
    (by rw [hr1]; norm_num) (by rw [hr2]; norm_num)

/-- Witness for C10 at the axis-ray hit: the result record carries a point,
a normal, and the positive selected root 4. -/
theorem c10_result_well_formed_witness :
    ∃ p n t, raycast ⟨⟨0, 0, 0⟩, 1⟩ ⟨⟨0, 0, -5⟩, ⟨0, 0, 1⟩⟩ =
        ⟨true, some p, some n, some t⟩ ∧ 0 < t ∧
        selectRoot (root1 ⟨⟨0, 0, 0⟩, 1⟩ ⟨⟨0, 0, -5⟩, ⟨0, 0, 1⟩⟩)
          (root2 ⟨⟨0, 0, 0⟩, 1⟩ ⟨⟨0, 0, -5⟩, ⟨0, 0, 1⟩⟩) = some t :=
  (c10_result_well_formed _ _).2 (by rw [raycast_eval_axis])

/-- C7 counterexample. At the offset the claim gives, `(0,2,-5)`, the ray
passes 2 units from the unit sphere's axis: the discriminant is `-12`, not
`≈ 0`, and `raycast` returns no-hit rather than a grazing hit. -/
theorem c7_claimed_tangent_ray_misses :
    discrim ⟨⟨0, 0, 0⟩, 1⟩ ⟨⟨0, 2, -5⟩, ⟨0, 0, 1⟩⟩ = -12 ∧
      raycast ⟨⟨0, 0, 0⟩, 1⟩ ⟨⟨0, 2, -5⟩, ⟨0, 0, 1⟩⟩ = noHitResult := by
  have hd : discrim ⟨⟨0, 0, 0⟩, 1⟩ ⟨⟨0, 2, -5⟩, ⟨0, 0, 1⟩⟩ = -12 := by
    norm_num [discrim, coeffA, coeffB, coeffC, Vector3.fromTo, Vector3.clone,
      Vector3.negate, Vector3.dot]
  exact ⟨hd, by rw [raycast_unfold, if_pos (by rw [hd]; norm_num)]⟩

/-- C7 amended. At offset `(0,1,-5)` the ray is tangent to the unit sphere:
the discriminant is exactly 0, both roots equal 5, and `raycast` reports the
single grazing hit at `(0,1,0)` with the radially outward normal `(0,1,0)`. -/
theorem c7_tangent_amended_thm :
    discrim ⟨⟨0, 0, 0⟩, 1⟩ ⟨⟨0, 1, -5⟩, ⟨0, 0, 1⟩⟩ = 0 ∧
      root1 ⟨⟨0, 0, 0⟩, 1⟩ ⟨⟨0, 1, -5⟩, ⟨0, 0, 1⟩⟩ = 5 ∧
      root2 ⟨⟨0, 0, 0⟩, 1⟩ ⟨⟨0, 1, -5⟩, ⟨0, 0, 1⟩⟩ = 5 ∧
      raycast ⟨⟨0, 0, 0⟩, 1⟩ ⟨⟨0, 1, -5⟩, ⟨0, 0, 1⟩⟩ =
        ⟨true, some ⟨0, 1, 0⟩, some ⟨0, 1, 0⟩, some 5⟩ := by
  have hA : coeffA ⟨⟨0, 1, -5⟩, ⟨0, 0, 1⟩⟩ = 1 := by
    norm_num [coeffA, Vector3.dot]
  have hB : coeffB ⟨⟨0, 0, 0⟩, 1⟩ ⟨⟨0, 1, -5⟩, ⟨0, 0, 1⟩⟩ = -10 := by
    norm_num [coeffB, Vector3.fromTo, Vector3.clone, Vector3.negate, Vector3.dot]
  have hdisc : discrim ⟨⟨0, 0, 0⟩, 1⟩ ⟨⟨0, 1, -5⟩, ⟨0, 0, 1⟩⟩ = 0 := by
    norm_num [discrim, coeffA, coeffB, coeffC, Vector3.fromTo, Vector3.clone,
      Vector3.negate, Vector3.dot]
  have hr1 : root1 ⟨⟨0, 0, 0⟩, 1⟩ ⟨⟨0, 1, -5⟩, ⟨0, 0, 1⟩⟩ = 5 := by
    simp only [root1, hdisc, hB, hA, Real.sqrt_zero]
    norm_num
  have hr2 : root2 ⟨⟨0, 0, 0⟩, 1⟩ ⟨⟨0, 1, -5⟩, ⟨0, 0, 1⟩⟩ = 5 := by
    simp only [root2, hdisc, hB, hA, Real.sqrt_zero]
    norm_num
  have hsel : selectRoot (root1 ⟨⟨0, 0, 0⟩, 1⟩ ⟨⟨0, 1, -5⟩, ⟨0, 0, 1⟩⟩)
      (root2 ⟨⟨0, 0, 0⟩, 1⟩ ⟨⟨0, 1, -5⟩, ⟨0, 0, 1⟩⟩) = some 5 := by
    rw [hr1, hr2]
    simp only [selectRoot]
    rw [if_pos ⟨by norm_num, by norm_num⟩, min_self]
  have hi : ¬ (Vector3.fromTo (⟨0, 1, -5⟩ : Vector3) ⟨0, 0, 0⟩).length < (1 : ℝ) := by
    simp only [Vector3.fromTo, Vector3.length]
    rw [not_lt]
    have h1 : (1 : ℝ) = Real.sqrt 1 := (Real.sqrt_one).symm
    rw [h1]
    apply Real.sqrt_le_sqrt
    norm_num
  have hp : hitPoint ⟨⟨0, 1, -5⟩, ⟨0, 0, 1⟩⟩ 5 = ⟨0, 1, 0⟩ := by
    simp only [hitPoint, Vector3.clone, Vector3.add, Vector3.multiplyScalar]
    norm_num
  have hn : hitNormal ⟨⟨0, 0, 0⟩, 1⟩ ⟨⟨0, 1, -5⟩, ⟨0, 0, 1⟩⟩ 5 = ⟨0, 1, 0⟩ := by
    simp only [hitNormal, hp]
    have hft : Vector3.fromTo (⟨0, 0, 0⟩ : Vector3) ⟨0, 1, 0⟩ = (⟨0, 1, 0⟩ : Vector3) := by
      simp only [Vector3.fromTo]
      norm_num
    rw [hft, normalize_unit_y]
  refine ⟨hdisc, hr1, hr2, ?_⟩
  rw [raycast_eq_hit _ _ (by rw [hdisc]; norm_num) hsel hi, hp, hn]

/-! ### The Sphere constructor's defensive validation

The constructor receives raw JS values. Component values of a candidate
center vector and the radius argument are modelled by small inductives
covering the cases the validation cascade distinguishes; finite doubles
are represented by rationals. -/

/-- A component value read off a candidate center vector: a finite number,
NaN, `Infinity`, `-Infinity`, `undefined`, or `null`. -/
inductive JsComp where
  | num (q : ℚ)
  | nan
  | inf
  | negInf
  | undef
  | jsNull
deriving DecidableEq

/-- `isNaN` on a component: true on NaN and on `undefined` (whose ToNumber
is NaN); false on finite numbers, ±Infinity and `null` (ToNumber 0). -/
def jsIsNaNComp : JsComp → Bool
  | JsComp.nan => true
  | JsComp.undef => true
  | _ => false

/-- A JS number as the radius check sees it. -/
inductive JsNum where
  | fin (q : ℚ)
  | nan
  | inf
  | negInf
deriving DecidableEq

/-- `isNaN` on a number: true exactly on NaN (±Infinity are not NaN). -/
def jsIsNaNNum : JsNum → Bool
  | JsNum.nan => true
  | _ => false

/-- The `center` argument: a Vector3 instance carrying the given component
values, or any value that is not a Vector3 (`null`, a string, ...). -/
inductive CenterInput where
  | vec (x y z : JsComp)
  | notVec

/-- The `radius` argument: a value of `typeof === 'number'`, or anything
else (a string such as `"bad"`, `null`, `undefined`, ...). -/
inductive RadiusInput where
  | num (n : JsNum)
  | notNum

/-- The stored center: component values of the sphere's own vector. -/
structure JsVec3 where
  x : JsComp
  y : JsComp
  z : JsComp
deriving DecidableEq

/-- `new Vector3(0, 0, 0)`, the default center. -/
def zeroVec3 : JsVec3 := ⟨JsComp.num 0, JsComp.num 0, JsComp.num 0⟩

/-- The constructor's center computation: clone a Vector3 argument (zero
vector otherwise), then run the validation cascade. The cascade's first
branch (`!(this.center instanceof Vector3)`) can no longer fire, since
both assignments above store a Vector3. -/
def ctorCenter (center : CenterInput) : JsVec3 :=
  let c0 : JsVec3 :=
    match center with
    | CenterInput.vec x y z => ⟨x, y, z⟩
    | CenterInput.notVec => zeroVec3
  if jsIsNaNComp c0.x || jsIsNaNComp c0.y || jsIsNaNComp c0.z then zeroVec3
  else if c0.x = JsComp.undef ∨ c0.y = JsComp.undef ∨ c0.z = JsComp.undef then zeroVec3
  else if c0.x = JsComp.jsNull ∨ c0.y = JsComp.jsNull ∨ c0.z = JsComp.jsNull then zeroVec3
  else if c0.x = JsComp.inf ∨ c0.y = JsComp.inf ∨ c0.z = JsComp.inf then zeroVec3
  else if c0.x = JsComp.negInf ∨ c0.y = JsComp.negInf ∨ c0.z = JsComp.negInf then zeroVec3
  else c0

/-- The constructor's radius computation: keep a non-NaN number, else 1;
the later re-check (`typeof !== 'number' || isNaN`) runs on a value that
is always a number by then, so only its NaN half can matter. -/
def ctorRadius (radius : RadiusInput) : JsNum :=
  let r0 : JsNum :=
    match radius with
    | RadiusInput.num n => if jsIsNaNNum n then JsNum.fin 1 else n
    | RadiusInput.notNum => JsNum.fin 1
  if jsIsNaNNum r0 then JsNum.fin 1 else r0

/-- The fields stored by `Sphere(center, radius)`. -/
structure SphereFields where
  center : JsVec3
  radius : JsNum
deriving DecidableEq

/-- The Sphere constructor: the two fields are computed independently. -/
def sphereCtor (center : CenterInput) (radius : RadiusInput) : SphereFields :=
  ⟨ctorCenter center, ctorRadius radius⟩

/-- `0 < q` on a finite number, false on NaN and ±Infinity. -/
def JsNum.posFinB : JsNum → Bool
  | JsNum.fin q => decide (0 < q)
  | _ => false

/-- The input center fails validation: not a Vector3, or some component is
not a finite number. -/
def centerInvalidB : CenterInput → Bool
  | CenterInput.vec (JsComp.num _) (JsComp.num _) (JsComp.num _) => false
  | CenterInput.vec _ _ _ => true
  | CenterInput.notVec => true

/-- The input radius fails the constructor's check: not a number, or NaN. -/
def radiusInvalidB : RadiusInput → Bool
  | RadiusInput.num n => jsIsNaNNum n
  | RadiusInput.notNum => true

/-- The stored center is the zero vector or an all-finite component triple. -/
theorem ctorCenter_num (center : CenterInput) :
    ctorCenter center = zeroVec3 ∨
      ∃ qx qy qz : ℚ, ctorCenter center =
        ⟨JsComp.num qx, JsComp.num qy, JsComp.num qz⟩ := by
  rcases center with ⟨x, y, z⟩ | _
  · rcases x <;> rcases y <;> rcases z <;> exact Or.inr ⟨_, _, _, rfl⟩
  · exact Or.inl rfl

/-- C3 counterexample: `Sphere(null, Infinity)` stores radius `Infinity`.
`Infinity` passes `typeof === 'number' && !isNaN`, so it is kept: the
stored radius is neither positive-finite nor the substituted 1. -/
theorem c3_infinite_radius_kept :
    (sphereCtor CenterInput.notVec (RadiusInput.num JsNum.inf)).radius = JsNum.inf ∧
      JsNum.posFinB JsNum.inf = false ∧ JsNum.inf ≠ JsNum.fin 1 := by
  refine ⟨rfl, rfl, ?_⟩
  intro h
  exact JsNum.noConfusion h

/-- C3 amended. Construction always succeeds; the stored center is a triple
of finite numbers, the zero vector substituted exactly when the input is
not a Vector3 or has a non-finite-number component; the stored radius is
never NaN, 1 is substituted exactly when the input radius is not a number
or is NaN, and any other number — infinite or nonpositive included — is
stored unchanged; `Sphere(null, "bad")` yields center `(0,0,0)`, radius 1. -/
theorem c3_ctor_defaults (center : CenterInput) (radius : RadiusInput) :
    (∃ qx qy qz : ℚ, (sphereCtor center radius).center =
        ⟨JsComp.num qx, JsComp.num qy, JsComp.num qz⟩) ∧
      (sphereCtor center radius).radius ≠ JsNum.nan ∧
      (centerInvalidB center = true → (sphereCtor center radius).center = zeroVec3) ∧
      (radiusInvalidB radius = true → (sphereCtor center radius).radius = JsNum.fin 1) ∧
      (∀ n : JsNum, radius = RadiusInput.num n → jsIsNaNNum n = false →
        (sphereCtor center radius).radius = n) ∧
      sphereCtor CenterInput.notVec RadiusInput.notNum = ⟨zeroVec3, JsNum.fin 1⟩ := by
  refine ⟨?_, ?_, ?_, ?_, ?_, rfl⟩
  · rcases ctorCenter_num center with h | ⟨qx, qy, qz, h⟩
    · exact ⟨0, 0, 0, h⟩
    · exact ⟨qx, qy, qz, h⟩
  · rcases radius with n | _
    · rcases n with q | _ | _ | _
      · exact fun h => JsNum.noConfusion h
      · exact fun h => JsNum.noConfusion h
      · exact fun h => JsNum.noConfusion h
      · exact fun h => JsNum.noConfusion h
    · exact fun h => JsNum.noConfusion h
  · rcases center with ⟨x, y, z⟩ | _
    · rcases x <;> rcases y <;> rcases z <;> intro h <;>
        first
          | rfl
          | exact Bool.noConfusion h
    · intro _
      rfl
  · rcases radius with n | _
    · rcases n with q | _ | _ | _ <;> intro h <;>
        first
          | rfl
          | exact Bool.noConfusion h
    · intro _
      rfl
  · rintro n rfl hn
    rcases n with q | _ | _ | _
    · rfl
    · exact Bool.noConfusion hn
    · rfl
    · rfl

/-- Witness for C3's amended statement at a NaN-component center and a NaN
radius: both defaults kick in. -/
theorem c3_ctor_defaults_witness :
    (sphereCtor (CenterInput.vec JsComp.nan (JsComp.num 2) (JsComp.num 3))
        (RadiusInput.num JsNum.nan)).center = zeroVec3 ∧
      (sphereCtor (CenterInput.vec JsComp.nan (JsComp.num 2) (JsComp.num 3))
        (RadiusInput.num JsNum.nan)).radius = JsNum.fin 1 :=
  ⟨(c3_ctor_defaults _ _).2.2.1 (by decide),
    (c3_ctor_defaults _ _).2.2.2.1 (by decide)⟩

/-! ### Store-passing embedding for the frame property

JS Vector3 objects live on a heap and the mutating methods write through
references; `raycast` clones before every mutation, so the ray's and the
sphere's own vectors are never written. The heap is a map from allocation
indices to vector values. -/

/-- A heap of Vector3 objects: `next` is the next fresh reference. -/
structure Heap where
  mem : ℕ → Vector3
  next : ℕ

/-- Dereference. -/
def Heap.read (h : Heap) (r : ℕ) : Vector3 := h.mem r

/-- Allocate a fresh object holding `v`; returns its reference. -/
def Heap.alloc (h : Heap) (v : Vector3) : ℕ × Heap :=
  (h.next, ⟨Function.update h.mem h.next v, h.next + 1⟩)

/-- Overwrite the object at `r`. -/
def Heap.write (h : Heap) (r : ℕ) (v : Vector3) : Heap :=
  ⟨Function.update h.mem r v, h.next⟩

/-- `clone()`: allocates a fresh Vector3 with the receiver's components. -/
def cloneS (h : Heap) (r : ℕ) : ℕ × Heap := h.alloc (h.read r).clone

/-- `negate()`: writes the negated components back into the receiver. -/
def negateS (h : Heap) (r : ℕ) : Heap := h.write r (h.read r).negate

/-- `multiplyScalar(s)`: scales the receiver in place. -/
def multiplyScalarS (h : Heap) (r : ℕ) (scalar : ℝ) : Heap :=
  h.write r ((h.read r).multiplyScalar scalar)

/-- `add(v)`: adds the argument object's components into the receiver. -/
def addS (h : Heap) (r rv : ℕ) : Heap := h.write r ((h.read r).add (h.read rv))

/-- `normalize()`: rewrites the receiver with its normalized components. -/
noncomputable def normalizeS (h : Heap) (r : ℕ) : Heap :=
  h.write r (h.read r).normalize

/-- `Vector3.fromTo`: allocates a fresh result vector. -/
def fromToS (h : Heap) (rFrom rTo : ℕ) : ℕ × Heap :=
  h.alloc (Vector3.fromTo (h.read rFrom) (h.read rTo))

/-- The result record of the store-passing `raycast`: point and normal are
references into the heap. -/
structure RaycastResultS where
  hit : Bool
  point : Option ℕ
  normal : Option ℕ
  distance : Option ℝ

/-- `Sphere.raycast(ray)` with the object store explicit: the sphere is a
center reference plus the numeric radius, the ray a pair of references.
Allocation and write order follows the source line by line. -/
noncomputable def raycastS (h : Heap) (centerRef : ℕ) (radius : ℝ)
    (originRef dirRef : ℕ) : Heap × RaycastResultS :=
  let p1 := fromToS h originRef centerRef
  let otcRef := p1.1
  let h1 := p1.2
  let p2 := cloneS h1 otcRef
  let ctoRef := p2.1
  let h2 := p2.2
  let h3 := negateS h2 ctoRef
  let a := (h3.read dirRef).dot (h3.read dirRef)
  let b := 2 * (h3.read ctoRef).dot (h3.read dirRef)
  let c := (h3.read ctoRef).dot (h3.read ctoRef) - radius * radius
  let discriminant := b * b - 4 * a * c
  if discriminant < 0 then (h3, ⟨false, none, none, none⟩)
  else
    let t1 := (-b - Real.sqrt discriminant) / (2 * a)
    let t2 := (-b + Real.sqrt discriminant) / (2 * a)
    match selectRoot t1 t2 with
    | none => (h3, ⟨false, none, none, none⟩)
    | some t =>
      let p4 := cloneS h3 originRef
      let ipRef := p4.1
      let h4 := p4.2
      let p5 := cloneS h4 dirRef
      let dcRef := p5.1
      let h5 := p5.2
      let h6 := multiplyScalarS h5 dcRef t
      let h7 := addS h6 ipRef dcRef
      let p8 := fromToS h7 centerRef ipRef
      let nRef := p8.1
      let h8 := p8.2
      let h9 := normalizeS h8 nRef
      if t < 0 then (h9, ⟨false, none, none, none⟩)
      else if (h9.read otcRef).length < radius then (h9, ⟨false, none, none, none⟩)
      else if jsLe (lengthMethodRef (h9.read nRef)) (JsRelOperand.num 0) then
        (h9, ⟨false, none, none, none⟩)
      else (h9, ⟨true, some ipRef, some nRef, some t⟩)

theorem read_alloc_snd (h : Heap) (v : Vector3) {r : ℕ} (hr : r < h.next) :
    ((h.alloc v).2).read r = h.read r :=
  Function.update_noteq (Nat.ne_of_lt hr) _ _

theorem read_write_ne (h : Heap) (s : ℕ) (v : Vector3) {r : ℕ} (hrs : r ≠ s) :
    (h.write s v).read r = h.read r :=
  Function.update_noteq hrs _ _

theorem fst_cloneS (h : Heap) (x : ℕ) : (cloneS h x).1 = h.next := rfl

theorem fst_fromToS (h : Heap) (a b : ℕ) : (fromToS h a b).1 = h.next := rfl

theorem next_cloneS (h : Heap) (x : ℕ) : ((cloneS h x).2).next = h.next + 1 := rfl

theorem next_fromToS (h : Heap) (a b : ℕ) : ((fromToS h a b).2).next = h.next + 1 := rfl

theorem next_negateS (h : Heap) (x : ℕ) : (negateS h x).next = h.next := rfl

theorem next_multiplyScalarS (h : Heap) (x : ℕ) (k : ℝ) :
    (multiplyScalarS h x k).next = h.next := rfl

theorem next_addS (h : Heap) (x y : ℕ) : (addS h x y).next = h.next := rfl

theorem read_cloneS_snd (h : Heap) (x : ℕ) {r : ℕ} (hr : r < h.next) :
    ((cloneS h x).2).read r = h.read r :=
  read_alloc_snd _ _ hr

theorem read_fromToS_snd (h : Heap) (a b : ℕ) {r : ℕ} (hr : r < h.next) :
    ((fromToS h a b).2).read r = h.read r :=
  read_alloc_snd _ _ hr

theorem read_negateS (h : Heap) (x : ℕ) {r : ℕ} (hrx : r ≠ x) :
    (negateS h x).read r = h.read r :=
  read_write_ne _ _ _ hrx

theorem read_multiplyScalarS (h : Heap) (x : ℕ) (k : ℝ) {r : ℕ} (hrx : r ≠ x) :
    (multiplyScalarS h x k).read r = h.read r :=
  read_write_ne _ _ _ hrx

theorem read_addS (h : Heap) (x y : ℕ) {r : ℕ} (hrx : r ≠ x) :
    (addS h x y).read r = h.read r :=
  read_write_ne _ _ _ hrx

theorem read_normalizeS (h : Heap) (x : ℕ) {r : ℕ} (hrx : r ≠ x) :
    (normalizeS h x).read r = h.read r :=
  read_write_ne _ _ _ hrx

/-- Every object that existed before a `raycastS` call reads the same
afterwards: all writes go to freshly allocated vectors. -/
theorem raycastS_frame (h : Heap) (centerRef : ℕ) (radius : ℝ)
    (originRef dirRef : ℕ) {r : ℕ} (hr : r < h.next) :
    ((raycastS h centerRef radius originRef dirRef).1).read r = h.read r := by
  simp only [raycastS]
  set p1 := fromToS h originRef centerRef with hp1
  set otcRef := p1.1 with hotc
  set g1 := p1.2 with hg1
  set p2 := cloneS g1 otcRef with hp2
  set ctoRef := p2.1 with hcto
  set g2 := p2.2 with hg2
  set g3 := negateS g2 ctoRef with hg3
  have f1 : g1.next = h.next + 1 := by rw [hg1, hp1]; rfl
  have fcto : ctoRef = g1.next := by rw [hcto, hp2]; rfl
  have f2 : g2.next = g1.next + 1 := by rw [hg2, hp2]; rfl
  have f3 : g3.next = g2.next := by rw [hg3]; rfl
  have key3 : g3.read r = h.read r := by
    rw [hg3, @read_negateS g2 ctoRef r (by omega),
      hg2, hp2, @read_cloneS_snd g1 otcRef r (by omega),
      hg1, hp1, @read_fromToS_snd h originRef centerRef r hr]
  split
  · exact key3
  · split
    · exact key3
    next t heq =>
      set p4 := cloneS g3 originRef with hp4
      set ipRef := p4.1 with hip
      set g4 := p4.2 with hg4
      set p5 := cloneS g4 dirRef with hp5
      set dcRef := p5.1 with hdc
      set g5 := p5.2 with hg5
      set g6 := multiplyScalarS g5 dcRef t with hg6
      set g7 := addS g6 ipRef dcRef with hg7
      set p8 := fromToS g7 centerRef ipRef with hp8
      set nRef := p8.1 with hnr
      set g8 := p8.2 with hg8
      set g9 := normalizeS g8 nRef with hg9
      have fip : ipRef = g3.next := by rw [hip, hp4]; rfl
      have f4 : g4.next = g3.next + 1 := by rw [hg4, hp4]; rfl
      have fdc : dcRef = g4.next := by rw [hdc, hp5]; rfl
      have f5 : g5.next = g4.next + 1 := by rw [hg5, hp5]; rfl
      have f6 : g6.next = g5.next := by rw [hg6]; rfl
      have f7 : g7.next = g6.next := by rw [hg7]; rfl
      have fn : nRef = g7.next := by rw [hnr, hp8]; rfl
      have key9 : g9.read r = h.read r := by
        rw [hg9, @read_normalizeS g8 nRef r (by omega),
          hg8, hp8, @read_fromToS_snd g7 centerRef ipRef r (by omega),
          hg7, @read_addS g6 ipRef dcRef r (by omega),
          hg6, @read_multiplyScalarS g5 dcRef t r (by omega),
          hg5, hp5, @read_cloneS_snd g4 dirRef r (by omega),
          hg4, hp4, @read_cloneS_snd g3 originRef r (by omega)]
        exact key3
      split
      · exact key9
      · split
        · exact key9
        · split
          · exact key9
          · exact key9

/-- C8. A `raycast` call leaves the ray's origin and direction vectors and
the sphere's center vector unchanged in the store (and the radius is a
number passed by value, untouched by construction): only freshly allocated
vectors are mutated, and the result record is fresh. -/
theorem c8_raycast_leaves_inputs (h : Heap) (centerRef : ℕ) (radius : ℝ)
    (originRef dirRef : ℕ) (ho : originRef < h.next) (hd : dirRef < h.next)
    (hc : centerRef < h.next) :
    ((raycastS h centerRef radius originRef dirRef).1).read originRef =
        h.read originRef ∧
      ((raycastS h centerRef radius originRef dirRef).1).read dirRef =
        h.read dirRef ∧
      ((raycastS h centerRef radius originRef dirRef).1).read centerRef =
        h.read centerRef :=
  ⟨raycastS_frame h centerRef radius originRef dirRef ho,
    raycastS_frame h centerRef radius originRef dirRef hd,
    raycastS_frame h centerRef radius originRef dirRef hc⟩

/-- A concrete three-object heap for the C8 witness. -/
def sampleHeap : Heap := ⟨fun _ => ⟨0, 0, 0⟩, 3⟩

/-- Witness for C8 on a concrete heap holding the origin, direction and
center at references 0, 1, 2. -/
theorem c8_raycast_leaves_inputs_witness :
    ((raycastS sampleHeap 2 1 0 1).1).read 0 = sampleHeap.read 0 ∧
      ((raycastS sampleHeap 2 1 0 1).1).read 1 = sampleHeap.read 1 ∧
      ((raycastS sampleHeap 2 1 0 1).1).read 2 = sampleHeap.read 2 :=
  c8_raycast_leaves_inputs sampleHeap 2 1 0 1 (by norm_num [sampleHeap])
    (by norm_num [sampleHeap]) (by norm_num [sampleHeap])

end RaySphere
